import Mathlib

/-!
Shallow embedding of the `gte` text editor (src/editor.rs, src/search_module.rs).
Lines and query strings are modelled as `List Char` (one entry per Unicode
scalar, matching the per-scalar indexing of the Rust code on the inputs of
interest); `usize` arithmetic is modelled with `Nat`, where Rust's
`saturating_sub` is Lean's truncated subtraction.  Panicking accesses
(`content[i]`, `String::insert`, ...) are modelled totally with `List.getD`
and take/drop; all theorems about them carry the in-bounds hypotheses under
which the Rust code does not panic.
-/

namespace GTE

/-- Lowercasing of a string, one character at a time
(models `str::to_lowercase` on the ordinal/ASCII fragment;
the spec notes the conversion is ordinal, not locale-aware). -/
def lowerStr (s : List Char) : List Char := s.map Char.toLower

/-- Does `pat` occur at the very start of `t`?  (Helper for `str::find`.) -/
def startsWith : List Char → List Char → Bool
  | [], _ => true
  | _ :: _, [] => false
  | p :: ps, c :: cs => p == c && startsWith ps cs

/-- Index of the first occurrence of `pat` inside `t`
(models Rust `str::find` with a string pattern). -/
def strFind (t pat : List Char) : Option Nat :=
  if startsWith pat t then some 0
  else
    match t with
    | [] => none
    | _ :: rest => (strFind rest pat).map (· + 1)

/-- The scanning loop shared by `SearchModule::search_in_text` and
`Editor::perform_search`: starting at offset `start`, find the next
occurrence of `pat`, record the half-open span, and resume at the span's
end offset.  The loop in the Rust source terminates because each found
occurrence moves `start` past its end; here the iteration count is bounded
by the explicit `fuel` argument, and the callers pass `text.length + 1`,
which is enough fuel because `start` strictly increases while staying
within the text whenever `pat` is non-empty. -/
def scanFuel (text pat : List Char) : Nat → Nat → List (Nat × Nat)
  | 0, _ => []
  | fuel + 1, start =>
    match strFind (text.drop start) pat with
    | none => []
    | some pos =>
      (start + pos, start + pos + pat.length) ::
        scanFuel text pat fuel (start + pos + pat.length)

/-- State of the GUI search panel (src/search_module.rs, `SearchModule`). -/
structure SearchModule where
  search_text : List Char
  case_sensitive : Bool
  show_search : Bool
  «matches» : List (Nat × Nat)
  current_match : Nat
  focus_search_field : Bool
deriving DecidableEq

/-- `SearchModule::new` / `Default`. -/
def SearchModule.new : SearchModule :=
  { search_text := []
    case_sensitive := false
    show_search := false
    «matches» := []
    current_match := 0
    focus_search_field := false }

/-- `SearchModule::toggle_search`: flip the panel; on close, clear the
query, the matches and the current-match index. -/
def SearchModule.toggle_search (m : SearchModule) : SearchModule :=
  let m1 : SearchModule := { m with show_search := !m.show_search }
  if m1.show_search then { m1 with focus_search_field := true }
  else { m1 with search_text := [], «matches» := [], current_match := 0 }

/-- `SearchModule::search_in_text`: clear matches, return immediately on an
empty query, otherwise lower-case pattern and text when case-insensitive and
run the non-overlapping scan. -/
def SearchModule.search_in_text (m : SearchModule) (text : List Char) :
    SearchModule :=
  let m0 : SearchModule := { m with «matches» := [], current_match := 0 }
  if m.search_text = [] then m0
  else
    let search_pattern :=
      if m.case_sensitive then m.search_text else lowerStr m.search_text
    let text_to_search :=
      if m.case_sensitive then text else lowerStr text
    { m0 with
      «matches» :=
        scanFuel text_to_search search_pattern (text_to_search.length + 1) 0 }

/-- `SearchModule::next_match`: cyclic advance, no-op on an empty match set. -/
def SearchModule.next_match (m : SearchModule) : SearchModule :=
  if m.«matches» = [] then m
  else { m with current_match := (m.current_match + 1) % m.«matches».length }

/-- `SearchModule::previous_match`: cyclic retreat, no-op on an empty match
set. -/
def SearchModule.previous_match (m : SearchModule) : SearchModule :=
  if m.«matches» = [] then m
  else if m.current_match = 0 then
    { m with current_match := m.«matches».length - 1 }
  else { m with current_match := m.current_match - 1 }

/-- A match of the terminal editor (src/editor.rs, `struct Match`): line
index plus half-open column span.  (The Rust field `end` is a Lean keyword
and is rendered `stop`.) -/
structure Match where
  line : Nat
  start : Nat
  stop : Nat
deriving DecidableEq

/-- Cursor of the terminal editor (src/editor.rs, `CursorPosition`). -/
structure CursorPosition where
  x : Nat
  y : Nat
deriving DecidableEq

/-- `Vec::insert` at index `n` (callers keep `n ≤ l.length`). -/
def insertAt (n : Nat) (a : α) (l : List α) : List α :=
  l.take n ++ a :: l.drop n

/-- `Vec::remove` at index `n`, dropping the element (callers keep
`n < l.length`). -/
def removeAt (n : Nat) (l : List α) : List α :=
  l.take n ++ l.drop (n + 1)

/-- State of the terminal editor (src/editor.rs, `struct Editor`). -/
structure Editor where
  content : List (List Char)
  cursor_position : CursorPosition
  should_quit : Bool
  filename : Option (List Char)
  status_message : List Char
  scroll_offset : Nat
  terminal_size : Nat × Nat
  search_mode : Bool
  search_query : List Char
  search_matches : List Match
  current_match : Nat
deriving DecidableEq

/-- `Editor::new` (terminal size defaulted to 80×24 as in the source's
`unwrap_or`). -/
def Editor.new : Editor :=
  { content := [[]]
    cursor_position := { x := 0, y := 0 }
    should_quit := false
    filename := none
    status_message := []
    scroll_offset := 0
    terminal_size := (80, 24)
    search_mode := false
    search_query := []
    search_matches := []
    current_match := 0 }

/-- The `(self.terminal_size.1 - 2) as usize` visible-line count used by
every scrolling routine. -/
def Editor.visibleLines (e : Editor) : Nat := e.terminal_size.2 - 2

/-- `Editor::update_scroll`. -/
def Editor.update_scroll (e : Editor) : Editor :=
  let visible := e.visibleLines
  if e.scroll_offset + visible ≤ e.cursor_position.y then
    { e with scroll_offset := e.cursor_position.y - visible + 1 }
  else if e.cursor_position.y < e.scroll_offset then
    { e with scroll_offset := e.cursor_position.y }
  else e

/-- `Editor::insert_char`. -/
def Editor.insert_char (e : Editor) (c : Char) : Editor :=
  let e1 : Editor :=
    if e.content.length ≤ e.cursor_position.y then
      { e with content := e.content ++ [[]] }
    else e
  let line := e1.content.getD e1.cursor_position.y []
  if e1.cursor_position.x ≤ line.length then
    { e1 with
      content := e1.content.set e1.cursor_position.y
        (line.take e1.cursor_position.x ++ c :: line.drop e1.cursor_position.x)
      cursor_position :=
        { e1.cursor_position with x := e1.cursor_position.x + 1 } }
  else e1

/-- `Editor::delete_char` (Backspace: in-line delete, or merge with the
previous line at column 0). -/
def Editor.delete_char (e : Editor) : Editor :=
  if 0 < e.cursor_position.x then
    let line := e.content.getD e.cursor_position.y []
    { e with
      content := e.content.set e.cursor_position.y
        (line.take (e.cursor_position.x - 1) ++ line.drop e.cursor_position.x)
      cursor_position :=
        { e.cursor_position with x := e.cursor_position.x - 1 } }
  else if 0 < e.cursor_position.y then
    let current_line := e.content.getD e.cursor_position.y []
    let content1 := removeAt e.cursor_position.y e.content
    let y1 := e.cursor_position.y - 1
    let prev_line := content1.getD y1 []
    { e with
      content := content1.set y1 (prev_line ++ current_line)
      cursor_position := { x := prev_line.length, y := y1 } }
  else e

/-- `Editor::insert_newline` (Enter: split the current line at the cursor). -/
def Editor.insert_newline (e : Editor) : Editor :=
  let line := e.content.getD e.cursor_position.y []
  let content1 :=
    e.content.set e.cursor_position.y (line.take e.cursor_position.x)
  { e with
    content := insertAt (e.cursor_position.y + 1)
      (line.drop e.cursor_position.x) content1
    cursor_position := { x := 0, y := e.cursor_position.y + 1 } }

/-- `Editor::scroll_page_up`: only acts when a full page of scroll is
available (`scroll_offset >= visible_lines`); otherwise the source does
nothing at all. -/
def Editor.scroll_page_up (e : Editor) : Editor :=
  let visible := e.visibleLines
  if visible ≤ e.scroll_offset then
    let y1 := e.cursor_position.y - visible
    let len1 := (e.content.getD y1 []).length
    { e with
      scroll_offset := e.scroll_offset - visible
      cursor_position := { x := min e.cursor_position.x len1, y := y1 } }
  else e

/-- `Editor::scroll_page_down`. -/
def Editor.scroll_page_down (e : Editor) : Editor :=
  let visible := e.visibleLines
  let off1 := e.scroll_offset + visible
  let off2 :=
    if e.content.length - visible < off1 then e.content.length - visible
    else off1
  let y1 := min (e.cursor_position.y + visible) (e.content.length - 1)
  let len1 := (e.content.getD y1 []).length
  { e with
    scroll_offset := off2
    cursor_position := { x := min e.cursor_position.x len1, y := y1 } }

/-- `Editor::enter_search_mode`. -/
def Editor.enter_search_mode (e : Editor) : Editor :=
  { e with
    search_mode := true
    search_query := []
    search_matches := []
    current_match := 0 }

/-- `Editor::exit_search_mode`: leaves `search_query` untouched in the
source, clearing only the matches and the current-match index. -/
def Editor.exit_search_mode (e : Editor) : Editor :=
  { e with
    search_mode := false
    search_matches := []
    current_match := 0 }

/-- `Editor::jump_to_match`. -/
def Editor.jump_to_match (e : Editor) (match_index : Nat) : Editor :=
  if h : match_index < e.search_matches.length then
    let mat := e.search_matches.get ⟨match_index, h⟩
    { e with
      cursor_position := { x := mat.start, y := mat.line }
      current_match := match_index }
  else e

/-- `Editor::perform_search`: clear matches, return on an empty query,
otherwise scan every line left-to-right non-overlappingly and, when at
least one match was found, jump to the first one. -/
def Editor.perform_search (e : Editor) : Editor :=
  let e1 : Editor := { e with search_matches := [], current_match := 0 }
  if e.search_query = [] then e1
  else
    let ms := e.content.enum.flatMap fun p =>
      (scanFuel p.2 e.search_query (p.2.length + 1) 0).map fun q =>
        { line := p.1, start := q.1, stop := q.2 }
    let e2 : Editor := { e1 with search_matches := ms }
    if ms = [] then e2 else e2.jump_to_match 0

/-- `Editor::find_next_match`. -/
def Editor.find_next_match (e : Editor) : Editor :=
  if e.search_matches = [] then e
  else
    let i := (e.current_match + 1) % e.search_matches.length
    Editor.jump_to_match { e with current_match := i } i


/-! ### List helper lemmas for the editing operations -/

theorem getD_set_self (l : List α) (n : Nat) (a d : α) (h : n < l.length) :
    (l.set n a).getD n d = a := by
  induction l generalizing n with
  | nil => simp at h
  | cons x xs ih =>
    cases n with
    | zero => simp
    | succ k => simpa using ih k (by simpa using h)

theorem set_getD_self (l : List α) (n : Nat) (d : α) (h : n < l.length) :
    l.set n (l.getD n d) = l := by
  induction l generalizing n with
  | nil => simp at h
  | cons x xs ih =>
    cases n with
    | zero => simp
    | succ k => simpa using ih k (by simpa using h)

theorem insertAt_zero (a : α) (l : List α) : insertAt 0 a l = a :: l := by
  simp [insertAt]

theorem insertAt_succ_cons (n : Nat) (a x : α) (xs : List α) :
    insertAt (n + 1) a (x :: xs) = x :: insertAt n a xs := by
  simp [insertAt]

theorem removeAt_zero (l : List α) : removeAt 0 l = l.drop 1 := by
  simp [removeAt]

theorem removeAt_succ_cons (n : Nat) (x : α) (xs : List α) :
    removeAt (n + 1) (x :: xs) = x :: removeAt n xs := by
  simp [removeAt]

theorem length_insertAt (n : Nat) (a : α) (l : List α) (h : n ≤ l.length) :
    (insertAt n a l).length = l.length + 1 := by
  simp [insertAt]
  omega

theorem length_removeAt (n : Nat) (l : List α) (h : n < l.length) :
    (removeAt n l).length = l.length - 1 := by
  simp [removeAt]
  omega

theorem getD_insertAt_self (n : Nat) (a d : α) (l : List α) (h : n ≤ l.length) :
    (insertAt n a l).getD n d = a := by
  induction l generalizing n with
  | nil =>
    have : n = 0 := by simpa using h
    subst this
    simp [insertAt]
  | cons x xs ih =>
    cases n with
    | zero => simp [insertAt_zero]
    | succ k =>
      rw [insertAt_succ_cons]
      simpa using ih k (by simpa using h)

theorem removeAt_insertAt (n : Nat) (a : α) (l : List α) (h : n ≤ l.length) :
    removeAt n (insertAt n a l) = l := by
  induction l generalizing n with
  | nil =>
    have : n = 0 := by simpa using h
    subst this
    simp [insertAt, removeAt]
  | cons x xs ih =>
    cases n with
    | zero => simp [insertAt_zero, removeAt_zero]
    | succ k =>
      rw [insertAt_succ_cons, removeAt_succ_cons]
      rw [ih k (by simpa using h)]

theorem getD_removeAt_lt (n m : Nat) (d : α) (l : List α) (h : m < n) :
    (removeAt n l).getD m d = l.getD m d := by
  induction l generalizing n m with
  | nil => simp [removeAt]
  | cons x xs ih =>
    cases n with
    | zero => omega
    | succ k =>
      rw [removeAt_succ_cons]
      cases m with
      | zero => simp
      | succ j => simpa using ih k j (by omega)

/-! ### C1: buffer/cursor invariant under editing -/

/-- The three editing commands the invariant claim ranges over:
`InsertChar` (any character), `Backspace` and `Enter`. -/
inductive EditOp where
  | ins : Char → EditOp
  | back : EditOp
  | enter : EditOp

/-- Dispatch of an editing command to the corresponding `Editor` method. -/
def applyOp (e : Editor) : EditOp → Editor
  | .ins c => e.insert_char c
  | .back => e.delete_char
  | .enter => e.insert_newline

/-- The buffer/cursor well-formedness invariant of the spec: at least one
line exists, the cursor row is a valid line index, and the cursor column is
at most the current line's length. -/
def bufferInv (e : Editor) : Prop :=
  e.content ≠ [] ∧
  e.cursor_position.y < e.content.length ∧
  e.cursor_position.x ≤ (e.content.getD e.cursor_position.y []).length

/-- Branch-wise characterization of `Editor::insert_newline`. -/
theorem insert_newline_eq (e : Editor) :
    e.insert_newline = { e with
      content := insertAt (e.cursor_position.y + 1)
        ((e.content.getD e.cursor_position.y []).drop e.cursor_position.x)
        (e.content.set e.cursor_position.y
          ((e.content.getD e.cursor_position.y []).take e.cursor_position.x))
      cursor_position := { x := 0, y := e.cursor_position.y + 1 } } := rfl

/-- Characterization of `Editor::insert_char` on in-bounds states. -/
theorem insert_char_eq (e : Editor) (c : Char)
    (hy : e.cursor_position.y < e.content.length)
    (hx : e.cursor_position.x ≤ (e.content.getD e.cursor_position.y []).length) :
    e.insert_char c = { e with
      content := e.content.set e.cursor_position.y
        ((e.content.getD e.cursor_position.y []).take e.cursor_position.x ++ c ::
          (e.content.getD e.cursor_position.y []).drop e.cursor_position.x)
      cursor_position :=
        { e.cursor_position with x := e.cursor_position.x + 1 } } := by
  unfold Editor.insert_char
  rw [if_neg (show ¬ e.content.length ≤ e.cursor_position.y by omega)]
  dsimp only
  rw [if_pos hx]

/-- Characterization of `Editor::delete_char` when the cursor is not at
column 0 (in-line deletion). -/
theorem delete_char_eq_inline (e : Editor) (hx0 : 0 < e.cursor_position.x) :
    e.delete_char = { e with
      content := e.content.set e.cursor_position.y
        ((e.content.getD e.cursor_position.y []).take (e.cursor_position.x - 1) ++
          (e.content.getD e.cursor_position.y []).drop e.cursor_position.x)
      cursor_position :=
        { e.cursor_position with x := e.cursor_position.x - 1 } } := by
  unfold Editor.delete_char
  rw [if_pos hx0]

/-- Characterization of `Editor::delete_char` at column 0 of a line other
than the first (line merge). -/
theorem delete_char_eq_merge (e : Editor) (hx0 : e.cursor_position.x = 0)
    (hy0 : 0 < e.cursor_position.y) :
    e.delete_char = { e with
      content := (removeAt e.cursor_position.y e.content).set
        (e.cursor_position.y - 1)
        (((removeAt e.cursor_position.y e.content).getD
            (e.cursor_position.y - 1) []) ++
          e.content.getD e.cursor_position.y [])
      cursor_position :=
        { x := ((removeAt e.cursor_position.y e.content).getD
            (e.cursor_position.y - 1) []).length
          y := e.cursor_position.y - 1 } } := by
  unfold Editor.delete_char
  rw [if_neg (show ¬ 0 < e.cursor_position.x by omega)]
  dsimp only
  rw [if_pos hy0]

theorem bufferInv_insert_char (e : Editor) (c : Char) (h : bufferInv e) :
    bufferInv (e.insert_char c) := by
  obtain ⟨hne, hy, hx⟩ := h
  rw [insert_char_eq e c hy hx]
  refine ⟨?_, ?_, ?_⟩
  · intro habs
    have hl := congrArg List.length habs
    rw [List.length_set] at hl
    simp only [List.length_nil] at hl
    omega
  · dsimp only
    rw [List.length_set]
    exact hy
  · dsimp only
    rw [getD_set_self _ _ _ _ hy, List.length_append, List.length_cons,
      List.length_take, List.length_drop, inf_eq_min]
    omega

theorem bufferInv_delete_char (e : Editor) (h : bufferInv e) :
    bufferInv e.delete_char := by
  obtain ⟨hne, hy, hx⟩ := h
  by_cases hx0 : 0 < e.cursor_position.x
  · rw [delete_char_eq_inline e hx0]
    refine ⟨?_, ?_, ?_⟩
    · intro habs
      have hl := congrArg List.length habs
      rw [List.length_set] at hl
      simp only [List.length_nil] at hl
      omega
    · dsimp only
      rw [List.length_set]
      exact hy
    · dsimp only
      rw [getD_set_self _ _ _ _ hy, List.length_append, List.length_take,
        List.length_drop, inf_eq_min]
      omega
  · by_cases hy0 : 0 < e.cursor_position.y
    · rw [delete_char_eq_merge e (by omega) hy0]
      have hrem : (removeAt e.cursor_position.y e.content).length
          = e.content.length - 1 := length_removeAt _ _ hy
      have hy1 : e.cursor_position.y - 1
          < (removeAt e.cursor_position.y e.content).length := by
        rw [hrem]; omega
      refine ⟨?_, ?_, ?_⟩
      · intro habs
        have hl := congrArg List.length habs
        rw [List.length_set, hrem] at hl
        simp only [List.length_nil] at hl
        omega
      · dsimp only
        rw [List.length_set, hrem]
        omega
      · dsimp only
        rw [getD_set_self _ _ _ _ hy1, List.length_append]
        omega
    · have heq : e.delete_char = e := by
        unfold Editor.delete_char
        rw [if_neg hx0]
        dsimp only
        rw [if_neg hy0]
      rw [heq]
      exact ⟨hne, hy, hx⟩

theorem bufferInv_insert_newline (e : Editor) (h : bufferInv e) :
    bufferInv e.insert_newline := by
  obtain ⟨hne, hy, hx⟩ := h
  rw [insert_newline_eq e]
  have hle : e.cursor_position.y + 1
      ≤ (e.content.set e.cursor_position.y
        ((e.content.getD e.cursor_position.y []).take
          e.cursor_position.x)).length := by
    rw [List.length_set]; omega
  refine ⟨?_, ?_, ?_⟩
  · intro habs
    have hl := congrArg List.length habs
    rw [length_insertAt _ _ _ hle] at hl
    simp at hl
  · dsimp only
    rw [length_insertAt _ _ _ hle, List.length_set]
    omega
  · exact Nat.zero_le _

theorem bufferInv_applyOp (e : Editor) (op : EditOp) (h : bufferInv e) :
    bufferInv (applyOp e op) := by
  cases op with
  | ins c => exact bufferInv_insert_char e c h
  | back => exact bufferInv_delete_char e h
  | enter => exact bufferInv_insert_newline e h

theorem bufferInv_foldl (ops : List EditOp) :
    ∀ e : Editor, bufferInv e → bufferInv (ops.foldl applyOp e) := by
  induction ops with
  | nil => intro e h; simpa using h
  | cons op rest ih =>
    intro e h
    simpa using ih (applyOp e op) (bufferInv_applyOp e op h)

/-- C1: for every sequence of insert_char, delete_char (Backspace) and
insert_newline (Enter) commands starting from the initial one-empty-line
buffer, after every operation the buffer still has at least one line, the
cursor row is a valid line index, and the cursor column is at most the
length of the line at the cursor row. -/
theorem C1_edit_invariant (ops : List EditOp) :
    bufferInv (List.foldl applyOp Editor.new ops) :=
  bufferInv_foldl ops Editor.new (by refine ⟨by simp [Editor.new], by simp [Editor.new], by simp [Editor.new]⟩)

/-! ### C2: non-overlapping scan -/

theorem scanFuel_mem (text pat : List Char) :
    ∀ (fuel start : Nat) (p : Nat × Nat), p ∈ scanFuel text pat fuel start →
      start ≤ p.1 ∧ p.2 = p.1 + pat.length := by
  intro fuel
  induction fuel with
  | zero => intro start p hp; simp [scanFuel] at hp
  | succ f ih =>
    intro start p hp
    rw [scanFuel] at hp
    cases hfind : strFind (text.drop start) pat with
    | none => rw [hfind] at hp; simp at hp
    | some pos =>
      rw [hfind] at hp
      rcases List.mem_cons.mp hp with h | h
      · subst h; exact ⟨Nat.le_add_right _ _, rfl⟩
      · have := ih (start + pos + pat.length) p h
        exact ⟨by omega, this.2⟩

theorem scanFuel_pairwise (text pat : List Char) :
    ∀ (fuel start : Nat),
      List.Pairwise (fun a b : Nat × Nat => a.2 ≤ b.1)
        (scanFuel text pat fuel start) := by
  intro fuel
  induction fuel with
  | zero => intro start; simp [scanFuel]
  | succ f ih =>
    intro start
    rw [scanFuel]
    cases hfind : strFind (text.drop start) pat with
    | none => simp
    | some pos =>
      refine List.Pairwise.cons ?_ (ih (start + pos + pat.length))
      intro b hb
      exact (scanFuel_mem text pat f (start + pos + pat.length) b hb).1

/-- The state of `SearchModule` used in the spec example
`search("aaa", "aa", case_sensitive=true)`. -/
def sm2 : SearchModule :=
  { SearchModule.new with search_text := ("aa".toList), case_sensitive := true }

/-- The text of the spec example. -/
def textAAA : List Char := ("aaa".toList)

/-- C2: searching the text "aaa" for the non-empty query "aa"
(case-sensitive) returns exactly one match, the half-open span [0,2); and
in general the scan is non-overlapping: in the returned match list each
span ends no later than the next span starts, so no two returned spans
overlap. -/
theorem C2_search_nonoverlap :
    (sm2.search_in_text textAAA).«matches» = [(0, 2)] ∧
    ∀ (m : SearchModule) (text : List Char),
      List.Pairwise (fun a b : Nat × Nat => a.2 ≤ b.1)
        ((m.search_in_text text).«matches») := by
  refine ⟨by decide, ?_⟩
  intro m text
  unfold SearchModule.search_in_text
  by_cases hq : m.search_text = []
  · rw [if_pos hq]
    dsimp only
    exact List.Pairwise.nil
  · rw [if_neg hq]
    dsimp only
    exact scanFuel_pairwise _ _ _ _

/-! ### C3: page_up / page_down -/

/-- A state falsifying the symmetric-paging claim: 10 lines, visible height
3 (terminal height 5), scroll offset 0, cursor on row 5. -/
def e3bad : Editor :=
  { Editor.new with
    content := List.replicate 10 []
    terminal_size := (80, 5)
    scroll_offset := 0
    cursor_position := { x := 0, y := 5 } }

/-- What the paging routines actually do: `scroll_page_down` shifts the
offset by `+visible` clamped to `[0, max 0 (line_count - visible)]` and
moves the cursor row by `+visible` clamped to `line_count - 1`, re-clamping
the column; `scroll_page_up` acts only when `visible ≤ scroll_offset`, in
which case it shifts the offset by `-visible` and the cursor row by
`-visible` (saturating at 0) with the column re-clamped, and otherwise it
leaves the whole state unchanged. -/
def pagingSpec (e : Editor) : Prop :=
  ((e.scroll_page_down).scroll_offset
      = min (e.scroll_offset + e.visibleLines)
          (e.content.length - e.visibleLines)) ∧
  ((e.scroll_page_down).cursor_position.y
      = min (e.cursor_position.y + e.visibleLines) (e.content.length - 1)) ∧
  ((e.scroll_page_down).cursor_position.x
      = min e.cursor_position.x
          (e.content.getD
            (min (e.cursor_position.y + e.visibleLines)
              (e.content.length - 1)) []).length) ∧
  (e.visibleLines ≤ e.scroll_offset →
    (e.scroll_page_up).scroll_offset = e.scroll_offset - e.visibleLines ∧
    (e.scroll_page_up).cursor_position.y
      = e.cursor_position.y - e.visibleLines ∧
    (e.scroll_page_up).cursor_position.x
      = min e.cursor_position.x
          (e.content.getD (e.cursor_position.y - e.visibleLines) []).length) ∧
  (e.scroll_offset < e.visibleLines → e.scroll_page_up = e)

/-- C3 (counterexample): at `e3bad` (scroll offset 0 < visible height 3,
cursor row 5, 10 lines) `scroll_page_up` does nothing at all — the cursor
row stays 5 — whereas the claim predicts the row moves by `-visible_height`
clamped, i.e. to `min (5 - 3) 9 = 2`. -/
theorem C3_counterexample :
    (e3bad.scroll_page_up).cursor_position.y
      ≠ min (e3bad.cursor_position.y - e3bad.visibleLines)
          (e3bad.content.length - 1) := by decide

/-- C3 (amended): `scroll_page_down` behaves exactly as the claim states;
`scroll_page_up` only acts when `visible_height ≤ scroll_offset`, shifting
the offset and the cursor row down by `visible_height` (saturating) with
the column re-clamped, and is a complete no-op otherwise. -/
theorem C3_paging (e : Editor) (_hne : e.content ≠ [])
    (_hy : e.cursor_position.y < e.content.length) : pagingSpec e := by
  unfold pagingSpec Editor.scroll_page_down Editor.scroll_page_up
  dsimp only
  refine ⟨?_, rfl, rfl, ?_, ?_⟩
  · split <;> omega
  · intro hvis
    rw [if_pos hvis]
    exact ⟨rfl, rfl, rfl⟩
  · intro hlt
    rw [if_neg (by omega)]

/-- A concrete in-bounds state exercising both paging directions: 10 lines,
visible height 3, scroll offset 4, cursor at row 5 column 2. -/
def e3w : Editor :=
  { Editor.new with
    content := List.replicate 10 []
    terminal_size := (80, 5)
    scroll_offset := 4
    cursor_position := { x := 2, y := 5 } }

theorem C3_paging_witness : pagingSpec e3w :=
  C3_paging e3w (by decide) (by decide)

/-! ### C4: update_scroll -/

/-- A state falsifying the unconditional scroll bound: 10 lines, visible
height 3, prior offset 9 (out of the scroll window bound 7), cursor row 8. -/
def e4bad : Editor :=
  { Editor.new with
    content := List.replicate 10 []
    terminal_size := (80, 5)
    scroll_offset := 9
    cursor_position := { x := 0, y := 8 } }

/-- The update rule of `update_scroll` together with the scroll bound. -/
def scrollSpec (e : Editor) : Prop :=
  ((e.update_scroll).scroll_offset =
    (if e.scroll_offset + e.visibleLines ≤ e.cursor_position.y then
      e.cursor_position.y - e.visibleLines + 1
    else if e.cursor_position.y < e.scroll_offset then e.cursor_position.y
    else e.scroll_offset)) ∧
  (e.update_scroll).scroll_offset ≤ e.content.length - e.visibleLines

/-- C4 (counterexample): at `e4bad` the cursor row 8 is a valid line index
and the prior offset 9 is non-negative, `line_count - visible_height = 7`
is positive, yet `update_scroll` (the source of `recompute_scroll`) yields
offset 8 > 7: the second branch copies the cursor row without clamping it
to the scroll window. -/
theorem C4_counterexample :
    e4bad.cursor_position.y < e4bad.content.length ∧
    0 < e4bad.content.length - e4bad.visibleLines ∧
    ¬ ((e4bad.update_scroll).scroll_offset
        ≤ e4bad.content.length - e4bad.visibleLines) := by decide

/-- C4 (amended): when the cursor row is a valid line index and the prior
offset additionally satisfies the scroll-window invariant
`scroll_offset ≤ max 0 (line_count - visible_height)` (truncated
subtraction), `update_scroll` follows exactly the claimed three-branch
rule and the resulting offset still satisfies the bound — in particular it
never exceeds `line_count - visible_height` when that quantity is
positive, and being a `Nat` it is never negative. -/
theorem C4_update_scroll (e : Editor)
    (hy : e.cursor_position.y < e.content.length)
    (hoff : e.scroll_offset ≤ e.content.length - e.visibleLines) :
    scrollSpec e := by
  unfold scrollSpec Editor.update_scroll
  dsimp only
  by_cases h1 : e.scroll_offset + e.visibleLines ≤ e.cursor_position.y
  · simp only [if_pos h1]
    refine ⟨trivial, ?_⟩
    dsimp only
    omega
  · simp only [if_neg h1]
    by_cases h2 : e.cursor_position.y < e.scroll_offset
    · simp only [if_pos h2]
      refine ⟨trivial, ?_⟩
      dsimp only
      omega
    · simp only [if_neg h2]
      exact ⟨trivial, hoff⟩

/-- A concrete in-bounds state for the scroll rule: 10 lines, visible
height 3, offset 4, cursor row 5. -/
def e4w : Editor :=
  { Editor.new with
    content := List.replicate 10 []
    terminal_size := (80, 5)
    scroll_offset := 4
    cursor_position := { x := 0, y := 5 } }

theorem C4_update_scroll_witness : scrollSpec e4w :=
  C4_update_scroll e4w (by decide) (by decide)

/-! ### C5: Enter / Backspace round-trip -/

theorem length_take_of_le (n : Nat) (l : List α) (h : n ≤ l.length) :
    (l.take n).length = n := by
  rw [List.length_take, inf_eq_min]
  exact Nat.min_eq_left h

/-- C5: splitting a line with `insert_newline` (Enter) and then pressing
Backspace (`delete_char`) at column 0 of the freshly created line restores
the original buffer content and cursor position — indeed the entire editor
state. -/
theorem C5_enter_backspace_roundtrip (e : Editor)
    (hy : e.cursor_position.y < e.content.length)
    (hx : e.cursor_position.x ≤ (e.content.getD e.cursor_position.y []).length) :
    (e.insert_newline).delete_char = e := by
  obtain ⟨content, ⟨x, y⟩, f1, f2, f3, f4, f5, f6, f7, f8, f9⟩ := e
  dsimp only at hy hx
  rw [insert_newline_eq]
  dsimp only
  rw [delete_char_eq_merge _ rfl (Nat.succ_pos y)]
  dsimp only
  have hsetlen : (content.set y ((content.getD y []).take x)).length
      = content.length := List.length_set content y _
  have hle : y + 1 ≤ (content.set y ((content.getD y []).take x)).length := by
    rw [hsetlen]; omega
  rw [removeAt_insertAt _ _ _ hle, getD_insertAt_self _ _ _ _ hle]
  rw [Nat.add_sub_cancel]
  rw [getD_set_self _ _ _ _ hy, List.set_set, List.take_append_drop]
  rw [set_getD_self _ _ _ hy, length_take_of_le _ _ hx]

/-- A concrete in-bounds state for the round-trip: one line "abcd" with the
cursor at column 2. -/
def e5w : Editor :=
  { Editor.new with
    content := [("abcd".toList)]
    cursor_position := { x := 2, y := 0 } }

theorem C5_enter_backspace_roundtrip_witness :
    (e5w.insert_newline).delete_char = e5w :=
  C5_enter_backspace_roundtrip e5w (by decide) (by decide)

/-! ### C6: cyclic match navigation -/

theorem next_match_matches (m : SearchModule) :
    (m.next_match).«matches» = m.«matches» := by
  unfold SearchModule.next_match
  split <;> rfl

theorem next_match_current (m : SearchModule) (hne : m.«matches» ≠ []) :
    (m.next_match).current_match
      = (m.current_match + 1) % m.«matches».length := by
  unfold SearchModule.next_match
  rw [if_neg hne]

theorem next_match_iterate :
    ∀ (k : Nat) (m : SearchModule), m.«matches» ≠ [] →
      m.current_match < m.«matches».length →
      (SearchModule.next_match^[k] m).current_match
          = (m.current_match + k) % m.«matches».length ∧
      (SearchModule.next_match^[k] m).«matches» = m.«matches» := by
  intro k
  induction k with
  | zero =>
    intro m hne hc
    simp [Nat.mod_eq_of_lt hc]
  | succ n ih =>
    intro m hne hc
    rw [Function.iterate_succ_apply]
    have hpos : 0 < m.«matches».length := List.length_pos.mpr hne
    have hne2 : (m.next_match).«matches» ≠ [] := by
      rw [next_match_matches]; exact hne
    have hlt : (m.next_match).current_match
        < (m.next_match).«matches».length := by
      rw [next_match_current m hne, next_match_matches]
      exact Nat.mod_lt _ hpos
    obtain ⟨h1, h2⟩ := ih (m.next_match) hne2 hlt
    rw [next_match_matches] at h1 h2
    refine ⟨?_, h2⟩
    rw [h1, next_match_current m hne, Nat.mod_add_mod]
    congr 1
    omega

/-- A state falsifying the claim for arbitrary starting indices: three
matches with a (stale, out-of-range) current index 5. -/
def sm6bad : SearchModule :=
  { SearchModule.new with
    «matches» := [(0, 2), (3, 5), (6, 8)]
    current_match := 5 }

/-- C6 (counterexample): from the starting current_match_index 5 with three
matches, three calls of next() land on index 2, not back on 5: the cyclic
return property fails for a starting index that is not below
`matches.length`. -/
theorem C6_counterexample :
    (SearchModule.next_match^[sm6bad.«matches».length] sm6bad).current_match
      ≠ sm6bad.current_match := by decide

/-- C6 (amended): for every non-empty match set and every starting
current_match_index that is in range (below matches.length, the invariant
the source maintains), calling next() exactly matches.length times returns
current_match_index to its original value; and when the match set is empty,
next() and previous() leave the state unchanged. -/
theorem C6_cyclic_navigation :
    (∀ m : SearchModule, m.«matches» ≠ [] →
        m.current_match < m.«matches».length →
        (SearchModule.next_match^[m.«matches».length] m).current_match
          = m.current_match) ∧
    (∀ m : SearchModule, m.«matches» = [] →
        m.next_match = m ∧ m.previous_match = m) := by
  constructor
  · intro m hne hc
    obtain ⟨h1, _⟩ := next_match_iterate m.«matches».length m hne hc
    rw [h1, Nat.add_mod_right]
    exact Nat.mod_eq_of_lt hc
  · intro m hme
    constructor
    · unfold SearchModule.next_match
      rw [if_pos hme]
    · unfold SearchModule.previous_match
      rw [if_pos hme]

/-- A two-match state with in-range current index 1, for the witness. -/
def sm6w : SearchModule :=
  { SearchModule.new with «matches» := [(0, 2), (3, 5)], current_match := 1 }

theorem C6_cyclic_navigation_witness :
    (SearchModule.next_match^[sm6w.«matches».length] sm6w).current_match
        = sm6w.current_match ∧
    (SearchModule.new.next_match = SearchModule.new ∧
      SearchModule.new.previous_match = SearchModule.new) :=
  ⟨C6_cyclic_navigation.1 sm6w (by decide) (by decide),
    C6_cyclic_navigation.2 SearchModule.new rfl⟩

/-! ### C7: case-insensitive search -/

/-- The module of the spec example `search("Hello hello HELLO", "hello",
case_sensitive=false)`. -/
def sm7 : SearchModule :=
  { SearchModule.new with
    search_text := ("hello".toList)
    case_sensitive := false }

/-- The text of the case-insensitivity example. -/
def text7 : List Char := ("Hello hello HELLO".toList)

/-- C7: in case-insensitive mode the search behaves exactly like a
case-sensitive search over the lower-cased text with the lower-cased query;
and on the text "Hello hello HELLO" with query "hello" it returns exactly
the three occurrences [0,5), [6,11), [12,17). -/
theorem C7_case_insensitive :
    (∀ (m : SearchModule) (text : List Char), m.case_sensitive = false →
      (m.search_in_text text).«matches»
        = (({ m with
              case_sensitive := true
              search_text := lowerStr m.search_text } :
            SearchModule).search_in_text (lowerStr text)).«matches») ∧
    (sm7.search_in_text text7).«matches» = [(0, 5), (6, 11), (12, 17)] := by
  constructor
  · intro m text hcs
    unfold SearchModule.search_in_text
    by_cases hq : m.search_text = []
    · have hq2 : lowerStr m.search_text = [] := by rw [hq]; rfl
      rw [if_pos hq]
      dsimp only
      rw [if_pos hq2]
    · have hq2 : lowerStr m.search_text ≠ [] := by
        intro habs
        exact hq (List.map_eq_nil_iff.mp habs)
      rw [if_neg hq]
      dsimp only
      rw [if_neg hq2]
      dsimp only
      rw [hcs]
      simp
  · decide

theorem C7_case_insensitive_witness :
    (sm7.search_in_text text7).«matches»
      = (({ sm7 with
            case_sensitive := true
            search_text := lowerStr sm7.search_text } :
          SearchModule).search_in_text (lowerStr text7)).«matches» :=
  C7_case_insensitive.1 sm7 text7 rfl

/-! ### C8: exiting search mode -/

/-- An editor in search mode with the query "ab" typed. -/
def e8bad : Editor :=
  { Editor.new with
    search_mode := true
    search_query := ("ab".toList)
    search_matches := [{ line := 0, start := 0, stop := 2 }]
    current_match := 0 }

/-- C8 (counterexample): the terminal editor's exit-search transition
(`exit_search_mode`, reached via Escape/Enter) keeps the query "ab" in
`search_query` instead of discarding it; only the match set and the
current-match index are cleared. -/
theorem C8_counterexample :
    (e8bad.exit_search_mode).search_query = ("ab".toList) ∧
    ("ab".toList) ≠ ([] : List Char) := by decide

/-- What the two exit transitions actually do: the terminal
`exit_search_mode` returns to Normal mode and discards the matches and the
current-match index but retains the query string (which is cleared again on
the next `enter_search_mode`); closing the GUI search panel via
`toggle_search` discards the query, the matches and the index. -/
def exitSearchSpec (e : Editor) (m : SearchModule) : Prop :=
  ((e.exit_search_mode).search_mode = false ∧
    (e.exit_search_mode).search_matches = [] ∧
    (e.exit_search_mode).current_match = 0 ∧
    (e.exit_search_mode).search_query = e.search_query) ∧
  ((m.toggle_search).show_search = false ∧
    (m.toggle_search).search_text = [] ∧
    (m.toggle_search).«matches» = [] ∧
    (m.toggle_search).current_match = 0)

/-- C8 (amended): for every search-mode state, the terminal exit-search
transition returns to Normal mode and discards the match set and the
current-match index but retains the query string; closing the open GUI
search panel discards both the query and the matches. -/
theorem C8_exit_search (e : Editor) (m : SearchModule)
    (hm : m.show_search = true) : exitSearchSpec e m := by
  unfold exitSearchSpec SearchModule.toggle_search
  rw [hm]
  exact ⟨⟨rfl, rfl, rfl, rfl⟩, ⟨rfl, rfl, rfl, rfl⟩⟩

/-- An open GUI search panel with query "ab" and one match. -/
def sm8w : SearchModule :=
  { SearchModule.new with
    show_search := true
    search_text := ("ab".toList)
    «matches» := [(0, 2)]
    current_match := 0 }

theorem C8_exit_search_witness : exitSearchSpec e8bad sm8w :=
  C8_exit_search e8bad sm8w rfl

/-! ### C9: empty query -/

/-- C9: for every text and every case-sensitivity flag, a search with the
empty query returns an empty match set immediately (no error value exists
on this path), in both the GUI search module and the terminal editor. -/
theorem C9_empty_query (m : SearchModule) (text : List Char) (e : Editor)
    (hm : m.search_text = []) (he : e.search_query = []) :
    (m.search_in_text text).«matches» = [] ∧
    (e.perform_search).search_matches = [] := by
  constructor
  · unfold SearchModule.search_in_text
    rw [if_pos hm]
  · unfold Editor.perform_search
    rw [if_pos he]

theorem C9_empty_query_witness :
    (SearchModule.new.search_in_text ("x".toList)).«matches» = [] ∧
    (Editor.new.perform_search).search_matches = [] :=
  C9_empty_query SearchModule.new ("x".toList) Editor.new rfl rfl

/-! ### C10: perform_search repositions the cursor -/

theorem jump_to_match_matches (e : Editor) (i : Nat) :
    (e.jump_to_match i).search_matches = e.search_matches := by
  unfold Editor.jump_to_match
  split <;> rfl

/-- C10: whenever the terminal editor's `perform_search` produces at least
one match, it also resets `current_match` to 0 and repositions the cursor
onto the first match: row = the match's line index, column = the match's
start offset. -/
theorem C10_jump_to_first (e : Editor) (mt : Match) (rest : List Match)
    (h : (e.perform_search).search_matches = mt :: rest) :
    (e.perform_search).current_match = 0 ∧
    (e.perform_search).cursor_position.y = mt.line ∧
    (e.perform_search).cursor_position.x = mt.start := by
  unfold Editor.perform_search at h ⊢
  by_cases hq : e.search_query = []
  · rw [if_pos hq] at h
    simp at h
  · rw [if_neg hq] at h ⊢
    dsimp only at h ⊢
    set ms := e.content.enum.flatMap
      (fun p => (scanFuel p.2 e.search_query (p.2.length + 1) 0).map
        fun q => ({ line := p.1, start := q.1, stop := q.2 } : Match))
      with hms
    by_cases hnil : ms = []
    · rw [if_pos hnil] at h
      dsimp only at h
      rw [hnil] at h
      simp at h
    · rw [if_neg hnil] at h ⊢
      rw [jump_to_match_matches] at h
      dsimp only at h
      unfold Editor.jump_to_match
      dsimp only
      have hlt : 0 < ms.length := by rw [h]; exact Nat.succ_pos _
      rw [dif_pos hlt]
      refine ⟨rfl, ?_, ?_⟩ <;> simp [h]

/-- A buffer with one line "ab" and pending query "b". -/
def e10w : Editor :=
  { Editor.new with
    content := [("ab".toList)]
    search_query := ("b".toList) }

theorem C10_jump_to_first_witness :
    (e10w.perform_search).current_match = 0 ∧
    (e10w.perform_search).cursor_position.y = 0 ∧
    (e10w.perform_search).cursor_position.x = 1 :=
  C10_jump_to_first e10w { line := 0, start := 1, stop := 2 } [] (by decide)

end GTE
